import Mathlib

/-!
Verification of the Emerald market-signal convergence engine.

Shallow embedding of the Python sources:
- strategy_monitor/signal_generator.py  (SignalGenerator)
- strategy_monitor/storage.py           (MultiTimeframeStorage)
- strategy_monitor/config.py            (THRESHOLDS, SCORING, signal constants)
- emerald/metrics/implementations.py    (OrderBookImbalanceMetric, VWAPDeviationMetric)
- ie/calculations.py                    (calculate_order_book_imbalance, calculate_vwap)
- ie/cache.py                           (IECache)
- ict/swing_detector.py                 (detect_swing_highs / detect_swing_lows)
- ict/dealing_range.py                  (identify_liquidity_grab, calculate_dealing_range)

Numbers are modelled as exact rationals, Python dict keys that may be absent as
Option fields, and the one unguarded Python division (ZeroDivisionError) as an
Except value.
-/

/-- Python abs() on a rational. -/
def pyAbs (q : ℚ) : ℚ := if q < 0 then -q else q

/-- Python max(a, b) on integers. -/
def pyMaxZ (a b : ℤ) : ℤ := if a < b then b else a

/-- Python min(a, b) on integers. -/
def pyMinZ (a b : ℤ) : ℤ := if b < a then b else a

/-- Python max(a, b) on rationals. -/
def pyMaxQ (a b : ℚ) : ℚ := if a < b then b else a

/-- Python min(a, b) on rationals. -/
def pyMinQ (a b : ℚ) : ℚ := if b < a then b else a

/-- Python max(a, b) on naturals. -/
def pyMaxN (a b : ℕ) : ℕ := if a < b then b else a

/-- Round a rational to the nearest integer, ties to even (Python `round`). -/
def roundHalfEven (q : ℚ) : ℤ :=
  let f : ℤ := ⌊q⌋
  let frac : ℚ := q - (f : ℚ)
  if frac < 1/2 then f
  else if 1/2 < frac then f + 1
  else if f % 2 = 0 then f else f + 1

/-- Python `round(q, n)`: round to `n` decimal places, ties to even. -/
def roundTo (n : ℕ) (q : ℚ) : ℚ := (roundHalfEven (q * 10 ^ n) : ℚ) / 10 ^ n

/-- Python `f"{q:.2f}"`: fixed two-decimal rendering of a rational. -/
def format2 (q : ℚ) : String :=
  let r : ℤ := roundHalfEven (q * 100)
  let sign := if r < 0 then "-" else ""
  let n := r.natAbs
  let frac := n % 100
  let fracStr := if frac < 10 then "0" ++ toString frac else toString frac
  sign ++ toString (n / 100) ++ "." ++ fracStr

/-- Python `f"{q:.1f}"`: fixed one-decimal rendering of a rational. -/
def format1 (q : ℚ) : String :=
  let r : ℤ := roundHalfEven (q * 10)
  let sign := if r < 0 then "-" else ""
  let n := r.natAbs
  sign ++ toString (n / 10) ++ "." ++ toString (n % 10)

/-! ## strategy_monitor/config.py -/

/-- Metric thresholds from strategy_monitor/config.py (THRESHOLDS dict). -/
structure Thresholds where
  order_book_imbalance : ℚ
  order_book_imbalance_extreme : ℚ
  trade_flow_moderate : ℚ
  trade_flow_strong : ℚ
  vwap_z_score_stretched : ℚ
  vwap_z_score_extreme : ℚ
  funding_elevated : ℚ
  funding_extreme : ℚ
  oi_change_threshold : ℚ
  basis_threshold : ℚ
deriving Repr, DecidableEq

/-- The THRESHOLDS values of strategy_monitor/config.py (identical to the
defaults of emerald/common/config.py MetricThresholds). -/
def THRESHOLDS : Thresholds :=
  { order_book_imbalance := 4/10
    order_book_imbalance_extreme := 6/10
    trade_flow_moderate := 3/10
    trade_flow_strong := 5/10
    vwap_z_score_stretched := 3/2
    vwap_z_score_extreme := 2
    funding_elevated := 7
    funding_extreme := 10
    oi_change_threshold := 3
    basis_threshold := 3/10 }

/-- Scoring weights from strategy_monitor/config.py (SCORING dict). -/
structure Scoring where
  order_book_extreme : ℤ
  order_book_strong : ℤ
  trade_flow_strong : ℤ
  trade_flow_moderate : ℤ
  vwap_extreme : ℤ
  vwap_stretched : ℤ
  funding_extreme : ℤ
  funding_elevated : ℤ
  oi_strong : ℤ
  oi_weak : ℤ
  funding_basis_aligned : ℤ
  funding_basis_diverged : ℤ
deriving Repr, DecidableEq

/-- The SCORING values of strategy_monitor/config.py (identical to the
defaults of emerald/common/config.py ScoringWeights). -/
def SCORING : Scoring :=
  { order_book_extreme := 25
    order_book_strong := 15
    trade_flow_strong := 25
    trade_flow_moderate := 15
    vwap_extreme := 30
    vwap_stretched := 20
    funding_extreme := 20
    funding_elevated := 10
    oi_strong := 20
    oi_weak := 10
    funding_basis_aligned := 15
    funding_basis_diverged := -20 }

/-- MIN_CONVERGENCE_SCORE from strategy_monitor/config.py. -/
def MIN_CONVERGENCE_SCORE : ℤ := 70

/-- MIN_ALIGNED_SIGNALS from strategy_monitor/config.py. -/
def MIN_ALIGNED_SIGNALS : ℕ := 3

/-! ## strategy_monitor/signal_generator.py -/

/-- The action field of a Signal. -/
inductive SignalAction where
  | LONG
  | SHORT
  | SKIP
deriving Repr, DecidableEq

/-- The confidence field of a Signal. -/
inductive Confidence where
  | HIGH
  | MEDIUM
  | LOW
deriving Repr, DecidableEq

/-- The metrics dict handed to SignalGenerator.generate_signal.  Every key is
read with dict.get and a default, so each may be absent (Option). -/
structure MetricsIn where
  ob_imbalance : Option ℚ
  flow_imbalance : Option ℚ
  vwap_z_score : Option ℚ
  funding_annualized : Option ℚ
  oi_divergence_type : Option String
  basis_pct : Option ℚ
  current_price : Option ℚ
  vwap : Option ℚ
deriving Repr, DecidableEq

/-- SignalGenerator.calculate_convergence_score before the final cap
(the running `score` value and the `breakdown` dict in insertion order). -/
def convergence_raw (m : MetricsIn) : ℤ × List (String × ℤ) :=
  -- 1. Order Book Imbalance
  let ob := pyAbs (m.ob_imbalance.getD 0)
  let s1 : ℤ × List (String × ℤ) :=
    if ob > THRESHOLDS.order_book_imbalance_extreme then
      (SCORING.order_book_extreme, [("order_book", SCORING.order_book_extreme)])
    else if ob > THRESHOLDS.order_book_imbalance then
      (SCORING.order_book_strong, [("order_book", SCORING.order_book_strong)])
    else (0, [])
  -- 2. Trade Flow
  let flow := pyAbs (m.flow_imbalance.getD 0)
  let s2 : ℤ × List (String × ℤ) :=
    if flow > THRESHOLDS.trade_flow_strong then
      (s1.1 + SCORING.trade_flow_strong, s1.2 ++ [("trade_flow", SCORING.trade_flow_strong)])
    else if flow > THRESHOLDS.trade_flow_moderate then
      (s1.1 + SCORING.trade_flow_moderate, s1.2 ++ [("trade_flow", SCORING.trade_flow_moderate)])
    else s1
  -- 3. VWAP Deviation
  let vz := pyAbs (m.vwap_z_score.getD 0)
  let s3 : ℤ × List (String × ℤ) :=
    if vz > THRESHOLDS.vwap_z_score_extreme then
      (s2.1 + SCORING.vwap_extreme, s2.2 ++ [("vwap", SCORING.vwap_extreme)])
    else if vz > THRESHOLDS.vwap_z_score_stretched then
      (s2.1 + SCORING.vwap_stretched, s2.2 ++ [("vwap", SCORING.vwap_stretched)])
    else s2
  -- 4. Funding Rate
  let fund := pyAbs (m.funding_annualized.getD 0)
  let s4 : ℤ × List (String × ℤ) :=
    if fund > THRESHOLDS.funding_extreme then
      (s3.1 + SCORING.funding_extreme, s3.2 ++ [("funding", SCORING.funding_extreme)])
    else if fund > THRESHOLDS.funding_elevated then
      (s3.1 + SCORING.funding_elevated, s3.2 ++ [("funding", SCORING.funding_elevated)])
    else s3
  -- 5. Open Interest Divergence
  let oiType := m.oi_divergence_type.getD "unknown"
  let s5 : ℤ × List (String × ℤ) :=
    if oiType = "strong_bullish" ∨ oiType = "strong_bearish" then
      (s4.1 + SCORING.oi_strong, s4.2 ++ [("oi", SCORING.oi_strong)])
    else if oiType = "weak_bullish" ∨ oiType = "weak_bearish" then
      (s4.1 + SCORING.oi_weak, s4.2 ++ [("oi", SCORING.oi_weak)])
    else s4
  -- 6. Funding-Basis Alignment Check
  let fundingVal := m.funding_annualized.getD 0
  let basis := m.basis_pct.getD 0
  let fundingExtreme := pyAbs fundingVal > THRESHOLDS.funding_extreme
  let basisExtreme := pyAbs basis > THRESHOLDS.basis_threshold
  let s6 : ℤ × List (String × ℤ) :=
    if fundingExtreme ∧ basisExtreme then
      let fundingPositive := fundingVal > THRESHOLDS.funding_extreme
      let basisPositive := basis > THRESHOLDS.basis_threshold
      if fundingPositive = basisPositive then
        (s5.1 + SCORING.funding_basis_aligned,
         s5.2 ++ [("funding_basis_alignment", SCORING.funding_basis_aligned)])
      else
        (s5.1 + SCORING.funding_basis_diverged,
         s5.2 ++ [("funding_basis_alignment", SCORING.funding_basis_diverged)])
    else s5
  s6

/-- SignalGenerator.calculate_convergence_score: raw sum capped into [0, 100]
by `score = min(100, max(0, score))`. -/
def calculate_convergence_score (m : MetricsIn) : ℤ × List (String × ℤ) :=
  let s := convergence_raw m
  (pyMinZ 100 (pyMaxZ 0 s.1), s.2)

/-- SignalGenerator._determine_action, with the two config constants
(MIN_CONVERGENCE_SCORE, MIN_ALIGNED_SIGNALS) passed explicitly.  The emerald
variant ConvergenceStrategy._determine_action is the same decision over
config.signal.min_convergence_score / min_aligned_signals. -/
def determine_action (minScore : ℤ) (minAligned : ℕ) (score : ℤ)
    (bullish_signals bearish_signals : ℕ) : SignalAction :=
  if score < minScore then .SKIP
  else if bullish_signals ≥ minAligned ∧ bullish_signals > bearish_signals then .LONG
  else if bearish_signals ≥ minAligned ∧ bearish_signals > bullish_signals then .SHORT
  else .SKIP

/-- SignalGenerator.count_directional_signals: bullish count, bearish count and
the details dict in insertion order. -/
def count_directional_signals (m : MetricsIn) : ℕ × ℕ × List (String × String) :=
  -- Order Book
  let ob := m.ob_imbalance.getD 0
  let s1 : ℕ × ℕ × List (String × String) :=
    if ob > THRESHOLDS.order_book_imbalance then
      (1, 0, [("order_book", "Bullish (" ++ format2 ob ++ ")")])
    else if ob < -THRESHOLDS.order_book_imbalance then
      (0, 1, [("order_book", "Bearish (" ++ format2 ob ++ ")")])
    else (0, 0, [])
  -- Trade Flow
  let flow := m.flow_imbalance.getD 0
  let s2 : ℕ × ℕ × List (String × String) :=
    if flow > THRESHOLDS.trade_flow_moderate then
      (s1.1 + 1, s1.2.1, s1.2.2 ++ [("trade_flow", "Bullish (" ++ format2 flow ++ ")")])
    else if flow < -THRESHOLDS.trade_flow_moderate then
      (s1.1, s1.2.1 + 1, s1.2.2 ++ [("trade_flow", "Bearish (" ++ format2 flow ++ ")")])
    else s1
  -- VWAP (mean reversion - extreme = fade)
  let vz := m.vwap_z_score.getD 0
  let s3 : ℕ × ℕ × List (String × String) :=
    if vz > THRESHOLDS.vwap_z_score_stretched then
      (s2.1, s2.2.1 + 1, s2.2.2 ++ [("vwap", "Bearish (overextended +" ++ format2 vz ++ "σ)")])
    else if vz < -THRESHOLDS.vwap_z_score_stretched then
      (s2.1 + 1, s2.2.1, s2.2.2 ++ [("vwap", "Bullish (oversold " ++ format2 vz ++ "σ)")])
    else s2
  -- Funding (contrarian - high funding = fade longs)
  let fund := m.funding_annualized.getD 0
  let s4 : ℕ × ℕ × List (String × String) :=
    if fund > THRESHOLDS.funding_extreme then
      (s3.1, s3.2.1 + 1, s3.2.2 ++ [("funding", "Bearish (crowded longs " ++ format1 fund ++ "%)")])
    else if fund < -THRESHOLDS.funding_extreme then
      (s3.1 + 1, s3.2.1, s3.2.2 ++ [("funding", "Bullish (crowded shorts " ++ format1 fund ++ "%)")])
    else s3
  -- OI Divergence
  let oiType := m.oi_divergence_type.getD "unknown"
  let s5 : ℕ × ℕ × List (String × String) :=
    if oiType = "strong_bullish" then
      (s4.1 + 1, s4.2.1, s4.2.2 ++ [("oi", "Bullish (new longs opening)")])
    else if oiType = "strong_bearish" then
      (s4.1, s4.2.1 + 1, s4.2.2 ++ [("oi", "Bearish (new shorts opening)")])
    else if oiType = "weak_bullish" then
      (s4.1, s4.2.1 + 1, s4.2.2 ++ [("oi", "Bearish (fake rally - shorts covering)")])
    else if oiType = "weak_bearish" then
      (s4.1 + 1, s4.2.1, s4.2.2 ++ [("oi", "Bullish (fake dump - longs closing)")])
    else s4
  s5

/-- SignalGenerator._calculate_price_levels: (entry, stop, target), each
rounded to two decimals. -/
def calculate_price_levels (action : SignalAction) (current_price vwap : ℚ) :
    ℚ × ℚ × ℚ :=
  if action = .SKIP ∨ current_price = 0 then (0, 0, 0)
  else
    let vwap' := if vwap = 0 then current_price else vwap
    if action = .LONG then
      let entry := current_price
      let stop := entry * (98/100)
      let target := pyMaxQ (vwap' * (101/100)) (entry * (1015/1000))
      (roundTo 2 entry, roundTo 2 stop, roundTo 2 target)
    else
      let entry := current_price
      let stop := entry * (102/100)
      let target := pyMinQ (vwap' * (99/100)) (entry * (985/1000))
      (roundTo 2 entry, roundTo 2 stop, roundTo 2 target)

/-- SignalGenerator._determine_confidence. -/
def determine_confidence (score : ℤ) (aligned_signals : ℕ) : Confidence :=
  if score ≥ 85 ∧ aligned_signals ≥ 4 then .HIGH
  else if score ≥ 70 ∧ aligned_signals ≥ 3 then .MEDIUM
  else .LOW

/-- The Signal dict returned by SignalGenerator.generate_signal. -/
structure Signal where
  action : SignalAction
  convergence_score : ℤ
  confidence : Confidence
  aligned_signals : ℕ
  bullish_signals : ℕ
  bearish_signals : ℕ
  score_breakdown : List (String × ℤ)
  signal_breakdown : List (String × String)
  entry_price : ℚ
  stop_loss : ℚ
  take_profit : ℚ
  timestamp : ℚ
deriving Repr, DecidableEq

/-- SignalGenerator.generate_signal.  The Python function stamps the result
with datetime.now(); the clock reading at the call is the `now` argument. -/
def generate_signal (metrics : MetricsIn) (now : ℚ) : Signal :=
  let sd := calculate_convergence_score metrics
  let score := sd.1
  let cd := count_directional_signals metrics
  let bullish := cd.1
  let bearish := cd.2.1
  let action := determine_action MIN_CONVERGENCE_SCORE MIN_ALIGNED_SIGNALS score bullish bearish
  let levels := calculate_price_levels action (metrics.current_price.getD 0) (metrics.vwap.getD 0)
  let confidence := determine_confidence score (pyMaxN bullish bearish)
  { action := action
    convergence_score := score
    confidence := confidence
    aligned_signals := pyMaxN bullish bearish
    bullish_signals := bullish
    bearish_signals := bearish
    score_breakdown := sd.2
    signal_breakdown := cd.2.2
    entry_price := levels.1
    stop_loss := levels.2.1
    take_profit := levels.2.2
    timestamp := now }

/-! ## strategy_monitor/storage.py -/

/-- A funding-rate snapshot held in MultiTimeframeStorage.funding_history
(the Snapshot dataclass with data = funding_rate, for one coin). -/
structure FundingSnap where
  ts : ℚ
  rate : ℚ
deriving Repr, DecidableEq

/-- An open-interest snapshot held in MultiTimeframeStorage.oi_history
(the Snapshot dataclass with data = oi and price, for one coin). -/
structure OISnap where
  ts : ℚ
  oi : ℚ
  price : ℚ
deriving Repr, DecidableEq

/-- The backwards search shared by get_oi_at_time and get_funding_at_time:
scan the history, keep the snapshot whose timestamp is nearest to the target
among those with distance strictly below the tolerance (first one wins ties).
The accumulator carries the running (closest, min_diff) pair. -/
def closest_aux {α : Type} (tsOf : α → ℚ) (target tol : ℚ) :
    List α → Option (α × ℚ) → Option (α × ℚ)
  | [], acc => acc
  | s :: rest, acc =>
    let d := pyAbs (tsOf s - target)
    let acc' : Option (α × ℚ) :=
      match acc with
      | none => if d < tol then some (s, d) else none
      | some (r, m) => if d < tol ∧ d < m then some (s, d) else some (r, m)
    closest_aux tsOf target tol rest acc'

/-- The snapshot selected by the tolerance-window search (closest = None at
loop entry, min_diff = infinity). -/
def closest_snapshot {α : Type} (tsOf : α → ℚ) (target tol : ℚ) (l : List α) :
    Option α :=
  (closest_aux tsOf target tol l none).map (·.1)

/-- The tolerance used by both lookups: 900 seconds (15 minutes). -/
def STORAGE_TOLERANCE : ℚ := 900

/-- MultiTimeframeStorage.get_oi_at_time for one coin's history.  `now` is the
time.time() reading; a coin absent from the dict is the empty history, for
which the scan returns None either way. -/
def get_oi_at_time (hist : List OISnap) (now hours_ago : ℚ) : Option OISnap :=
  closest_snapshot (·.ts) (now - hours_ago * 3600) STORAGE_TOLERANCE hist

/-- MultiTimeframeStorage.get_funding_at_time for one coin's history. -/
def get_funding_at_time (hist : List FundingSnap) (now hours_ago : ℚ) : Option ℚ :=
  (closest_snapshot (·.ts) (now - hours_ago * 3600) STORAGE_TOLERANCE hist).map (·.rate)

/-- The dict built by MultiTimeframeStorage.get_funding_dynamics.  Keys that
the Python code only sometimes inserts are Option fields; `acceleration` is
inserted on every successful call. -/
structure FundingDynamics where
  current : ℚ
  funding_4h_ago : ℚ
  velocity_4h : ℚ
  funding_8h_ago : Option ℚ
  velocity_8h : Option ℚ
  funding_12h_ago : Option ℚ
  acceleration : ℚ
deriving Repr, DecidableEq

/-- MultiTimeframeStorage.get_funding_dynamics for one coin's history:
None when the history is empty or the 4h anchor is missing; otherwise the
dynamics dict, with acceleration = velocity_4h - (funding_4h - funding_8h)
when the 8h anchor exists and 0.0 when it does not. -/
def get_funding_dynamics (hist : List FundingSnap) (now : ℚ) :
    Option FundingDynamics :=
  match hist.getLast? with
  | none => none
  | some cur =>
    let current := cur.rate
    let funding_4h := get_funding_at_time hist now 4
    let funding_8h := get_funding_at_time hist now 8
    let funding_12h := get_funding_at_time hist now 12
    match funding_4h with
    | none => none
    | some f4 =>
      some
        { current := current
          funding_4h_ago := f4
          velocity_4h := current - f4
          funding_8h_ago := funding_8h
          velocity_8h := funding_8h.map (fun f8 => current - f8)
          funding_12h_ago := funding_12h
          acceleration :=
            match funding_8h with
            | some f8 => (current - f4) - (f4 - f8)
            | none => 0 }

/-! ## ie/calculations.py -/

/-- ie/calculations.py calculate_order_book_imbalance: bid and ask ladders are
(price, size) pairs; liquidity on each side is the sum of the SIZES of the top
`depth` levels. -/
def calculate_order_book_imbalance (bids asks : List (ℚ × ℚ)) (depth : ℕ) :
    ℚ × String :=
  let bids_subset := bids.take depth
  let asks_subset := asks.take depth
  let total_bid_volume := (bids_subset.map (·.2)).sum
  let total_ask_volume := (asks_subset.map (·.2)).sum
  let total_volume := total_bid_volume + total_ask_volume
  if total_volume = 0 then (0, "neutral")
  else
    let imbalance := (total_bid_volume - total_ask_volume) / total_volume
    let strength :=
      if imbalance > 2/5 then "strong_bid_pressure"
      else if imbalance > 1/5 then "moderate_bid_pressure"
      else if imbalance < -(2/5) then "strong_ask_pressure"
      else if imbalance < -(1/5) then "moderate_ask_pressure"
      else "neutral"
    (imbalance, strength)

/-- The strength bucket of calculate_order_book_imbalance as a function of the
imbalance ratio alone. -/
def imbalance_strength (imbalance : ℚ) : String :=
  if imbalance > 2/5 then "strong_bid_pressure"
  else if imbalance > 1/5 then "moderate_bid_pressure"
  else if imbalance < -(2/5) then "strong_ask_pressure"
  else if imbalance < -(1/5) then "moderate_ask_pressure"
  else "neutral"

/-- The order-book imbalance as the spec words it: liquidity is the sum of
price×size over the top N levels of each side, with a neutral 0 when the total
liquidity is zero.  Written from spec.md section 4.2, to be compared with the
source functions. -/
def spec_order_book_imbalance (bids asks : List (ℚ × ℚ)) (depth : ℕ) : ℚ :=
  let bidLiquidity := ((bids.take depth).map (fun p => p.1 * p.2)).sum
  let askLiquidity := ((asks.take depth).map (fun p => p.1 * p.2)).sum
  if bidLiquidity + askLiquidity = 0 then 0
  else (bidLiquidity - askLiquidity) / (bidLiquidity + askLiquidity)

/-- A candle as consumed by ie/calculations.py (dict with high, low, close and
an optional volume defaulting to 0) and by the emerald metric classes. -/
structure IeCandle where
  high : ℚ
  low : ℚ
  close : ℚ
  volume : ℚ
deriving Repr, DecidableEq

/-- Typical price (H+L+C)/3 of a candle. -/
def typicalPrice (c : IeCandle) : ℚ := (c.high + c.low + c.close) / 3

/-- ie/calculations.py calculate_vwap: 0 for an empty list, the simple average
of typical prices when the total volume is zero, otherwise
sum(typical×volume)/sum(volume). -/
def calculate_vwap (candles : List IeCandle) : ℚ :=
  if candles = [] then 0
  else
    let total_pv := (candles.map (fun c => typicalPrice c * c.volume)).sum
    let total_volume := (candles.map (·.volume)).sum
    if total_volume = 0 then
      ((candles.map typicalPrice).sum) / (candles.length : ℚ)
    else total_pv / total_volume

/-! ## emerald/metrics/implementations.py -/

/-- One order-book level (price, size) as held in MarketData.order_book. -/
structure BookLevel where
  price : ℚ
  size : ℚ
deriving Repr, DecidableEq

/-- The fields of the MetricResult produced by OrderBookImbalanceMetric:
value = round(imbalance, 4), metadata bid_liquidity and ask_liquidity. -/
structure ObMetricResult where
  value : ℚ
  bid_liquidity : ℚ
  ask_liquidity : ℚ
deriving Repr, DecidableEq

/-- emerald OrderBookImbalanceMetric.calculate: liquidity on each side is the
sum of price×size over the top `levels` levels
(levels = config.calculation.order_book_levels). -/
def order_book_imbalance_metric (bids asks : List BookLevel) (levels : ℕ) :
    ObMetricResult :=
  let bidsN := bids.take levels
  let asksN := asks.take levels
  let bid_liquidity := (bidsN.map (fun b => b.price * b.size)).sum
  let ask_liquidity := (asksN.map (fun a => a.price * a.size)).sum
  let imbalance :=
    if bid_liquidity + ask_liquidity = 0 then 0
    else (bid_liquidity - ask_liquidity) / (bid_liquidity + ask_liquidity)
  { value := roundTo 4 imbalance
    bid_liquidity := bid_liquidity
    ask_liquidity := ask_liquidity }

/-- The fields of the MetricResult produced by VWAPDeviationMetric.  In the
zero-volume branch the Python metadata has no current_price key, hence the
Option. -/
structure VwapMetricResult where
  value : ℚ
  vwap : ℚ
  deviation_pct : ℚ
  z_score : ℚ
  current_price : Option ℚ
deriving Repr, DecidableEq

/-- emerald VWAPDeviationMetric.calculate.  `sqrtFn` stands for the
floating-point square root used by np.std (the result fields the claims touch
do not depend on it); `lookback = config.calculation.vwap_lookback_candles`.
VWAP is computed from CLOSE prices weighted by volume.  The call is None in
the one corner the floats leave non-finite: a zero VWAP reached with nonzero
volume, where deviation_pct divides by zero. -/
def vwap_deviation_metric (sqrtFn : ℚ → ℚ) (candles : List IeCandle)
    (lookback : ℕ) : Option VwapMetricResult :=
  -- Python candles[-lookback:] (the whole list when lookback = 0)
  let cs := if lookback = 0 then candles else candles.drop (candles.length - lookback)
  let volumes := cs.map (·.volume)
  if volumes.sum = 0 then
    some { value := 0, vwap := 0, deviation_pct := 0, z_score := 0, current_price := none }
  else
    match cs.getLast? with
    | none => none  -- unreachable: a nonzero volume sum needs a candle
    | some lastC =>
      let prices := cs.map (·.close)
      let vwap := ((cs.map (fun c => c.close * c.volume)).sum) / volumes.sum
      let current_price := lastC.close
      if vwap = 0 then none
      else
        let deviation_pct := ((current_price - vwap) / vwap) * 100
        let mean := prices.sum / (prices.length : ℚ)
        let variance := ((prices.map (fun p => (p - mean) ^ 2)).sum) / (prices.length : ℚ)
        let std_dev := sqrtFn variance
        let z_score := if std_dev > 0 then (current_price - vwap) / std_dev else 0
        some { value := roundTo 2 z_score
               vwap := roundTo 2 vwap
               deviation_pct := roundTo 2 deviation_pct
               z_score := roundTo 2 z_score
               current_price := some current_price }

/-! ## ict/swing_detector.py -/

/-- A candle as consumed by the ict modules (dict keys "t", "h", "l"). -/
structure IctCandle where
  t : ℚ
  h : ℚ
  l : ℚ
deriving Repr, DecidableEq

/-- A swing point dict: index, timestamp, price. -/
structure SwingPoint where
  index : ℕ
  timestamp : ℚ
  price : ℚ
deriving Repr, DecidableEq

/-- The "h" value at index i (indices produced by the scan are in range). -/
def candleHigh (candles : List IctCandle) (i : ℕ) : ℚ :=
  (candles[i]?.map (·.h)).getD 0

/-- The "l" value at index i. -/
def candleLow (candles : List IctCandle) (i : ℕ) : ℚ :=
  (candles[i]?.map (·.l)).getD 0

/-- The "t" value at index i. -/
def candleTime (candles : List IctCandle) (i : ℕ) : ℚ :=
  (candles[i]?.map (·.t)).getD 0

/-- ict/swing_detector.py detect_swing_highs: [] when fewer than min_candles
candles (min_candles = ICT_CONFIG.min_swing_candles by default), else every
interior index whose high beats both neighbours. -/
def detect_swing_highs (candles : List IctCandle) (min_candles : ℕ) :
    List SwingPoint :=
  if candles.length < min_candles then []
  else
    (List.range' 1 (candles.length - 2)).filterMap (fun i =>
      if candleHigh candles i > candleHigh candles (i - 1)
          ∧ candleHigh candles i > candleHigh candles (i + 1) then
        some { index := i, timestamp := candleTime candles i, price := candleHigh candles i }
      else none)

/-- ict/swing_detector.py detect_swing_lows (mirror of detect_swing_highs). -/
def detect_swing_lows (candles : List IctCandle) (min_candles : ℕ) :
    List SwingPoint :=
  if candles.length < min_candles then []
  else
    (List.range' 1 (candles.length - 2)).filterMap (fun i =>
      if candleLow candles i < candleLow candles (i - 1)
          ∧ candleLow candles i < candleLow candles (i + 1) then
        some { index := i, timestamp := candleTime candles i, price := candleLow candles i }
      else none)

/-! ## ict/dealing_range.py -/

/-- Modelled from the spec: the ICT_CONFIG object imported by the ict modules
from config.settings is not part of the sources; spec.md only fixes that the
zone thresholds are configurable with a neutral buffer straddling 50%, so the
four values the dealing-range code reads are carried as parameters. -/
structure IctConfig where
  liquidity_grab_threshold_pct : ℚ
  discount_threshold : ℚ
  premium_threshold : ℚ
  mid_range_buffer : ℚ
deriving Repr, DecidableEq

/-- The inner loop of identify_liquidity_grab: walk the previous swings in
order; a previous swing priced at 0 raises ZeroDivisionError (the Except
error); a percentage move at or beyond the threshold returns True. -/
def liquidity_grab_loop (swing_price threshold_pct : ℚ) (swing_type : String) :
    List SwingPoint → Except Unit Bool
  | [] => .ok false
  | p :: rest =>
    if p.price = 0 then .error ()
    else
      let pct_move :=
        if swing_type = "high" then ((swing_price - p.price) / p.price) * 100
        else ((p.price - swing_price) / p.price) * 100
      if pct_move ≥ threshold_pct then .ok true
      else liquidity_grab_loop swing_price threshold_pct swing_type rest

/-- ict/dealing_range.py identify_liquidity_grab. -/
def identify_liquidity_grab (cfg : IctConfig) (swing : SwingPoint)
    (previous_swings : List SwingPoint) (swing_type : String) :
    Except Unit Bool :=
  if previous_swings = [] then .ok false
  else liquidity_grab_loop swing.price cfg.liquidity_grab_threshold_pct swing_type previous_swings

/-- The backwards scan of calculate_dealing_range over one swing list:
`for i in range(len(swings)-1, -1, -1)` with previous = swings[:i].  The
argument is the REVERSED swing list, so that the head is the most recent swing
and the tail's reverse is its prefix of earlier swings. -/
def find_grabbed_swing (cfg : IctConfig) (swing_type : String) :
    List SwingPoint → Except Unit (Option SwingPoint)
  | [] => .ok none
  | s :: rest => do
    let grabbed ← identify_liquidity_grab cfg s rest.reverse swing_type
    if grabbed then pure (some s)
    else find_grabbed_swing cfg swing_type rest

/-- The dict returned by calculate_dealing_range.  Keys set to None in the
insufficient-swings branch are Option fields. -/
structure DealingRange where
  range_low : Option ℚ
  range_high : Option ℚ
  range_size : Option ℚ
  midpoint : Option ℚ
  current_percent : Option ℚ
  zone : String
  valid : Bool
  range_low_swing : Option SwingPoint
  range_high_swing : Option SwingPoint
deriving Repr, DecidableEq

/-- ict/dealing_range.py calculate_dealing_range.  The candles argument is
unused by the Python body and omitted here.  A ZeroDivisionError raised by
identify_liquidity_grab is the Except error. -/
def calculate_dealing_range (cfg : IctConfig) (swing_highs swing_lows : List SwingPoint)
    (current_price : ℚ) : Except Unit DealingRange :=
  if swing_highs = [] ∨ swing_lows = [] then
    .ok { range_low := none, range_high := none, range_size := none,
          midpoint := none, current_percent := none, zone := "unknown",
          valid := false, range_low_swing := none, range_high_swing := none }
  else do
    let grabbed_low ← find_grabbed_swing cfg "low" swing_lows.reverse
    -- fall back to the most recent swing low when no grab was found
    let range_low_swing := grabbed_low.getD (swing_lows.getLast?.getD ⟨0, 0, 0⟩)
    let grabbed_high ← find_grabbed_swing cfg "high" swing_highs.reverse
    let range_high_swing := grabbed_high.getD (swing_highs.getLast?.getD ⟨0, 0, 0⟩)
    let range_low := range_low_swing.price
    let range_high := range_high_swing.price
    let range_size := range_high - range_low
    let midpoint := (range_high + range_low) / 2
    let current_percent :=
      if range_size > 0 then (current_price - range_low) / range_size
      else 1/2
    let discount_threshold := cfg.discount_threshold - cfg.mid_range_buffer
    let premium_threshold := cfg.premium_threshold + cfg.mid_range_buffer
    let zone :=
      if current_percent ≤ discount_threshold then "discount"
      else if current_percent ≥ premium_threshold then "premium"
      else "mid-range"
    let result : DealingRange :=
      { range_low := some (roundTo 2 range_low)
        range_high := some (roundTo 2 range_high)
        range_size := some (roundTo 2 range_size)
        midpoint := some (roundTo 2 midpoint)
        current_percent := some (roundTo 3 current_percent)
        zone := zone
        valid := true
        range_low_swing := some range_low_swing
        range_high_swing := some range_high_swing }
    pure result

/-! ## ie/cache.py -/

/-- IECache state: the _cache dict as an association list key -> (data,
timestamp), plus the three statistics counters. -/
structure IECache (α : Type) where
  entries : List (String × α × ℚ)
  hits : ℕ
  misses : ℕ
  sets_count : ℕ
deriving Repr, DecidableEq

/-- A fresh cache (IECache.__init__). -/
def IECache.empty {α : Type} : IECache α := ⟨[], 0, 0, 0⟩

/-- Dict lookup self._cache[key]. -/
def cacheLookup {α : Type} (entries : List (String × α × ℚ)) (key : String) :
    Option (α × ℚ) :=
  (entries.find? (fun e => e.1 = key)).map (·.2)

/-- Dict deletion del self._cache[key]. -/
def cacheErase {α : Type} (entries : List (String × α × ℚ)) (key : String) :
    List (String × α × ℚ) :=
  entries.filter (fun e => ¬ e.1 = key)

/-- Dict assignment self._cache[key] = (data, now): replace in place if the
key exists, append otherwise. -/
def cacheInsert {α : Type} (entries : List (String × α × ℚ)) (key : String)
    (data : α) (now : ℚ) : List (String × α × ℚ) :=
  if entries.any (fun e => e.1 = key) then
    entries.map (fun e => if e.1 = key then (key, data, now) else e)
  else entries ++ [(key, data, now)]

/-- IECache.get: a missing key or an entry older than ttl (which is evicted)
is a miss; otherwise a hit returning the stored data.  `now` is the
time.time() reading. -/
def IECache.get {α : Type} (c : IECache α) (key : String) (ttl now : ℚ) :
    Option α × IECache α :=
  match cacheLookup c.entries key with
  | none => (none, { c with misses := c.misses + 1 })
  | some (data, ts) =>
    if now - ts > ttl then
      (none, { c with entries := cacheErase c.entries key, misses := c.misses + 1 })
    else
      (some data, { c with hits := c.hits + 1 })

/-- IECache.set. -/
def IECache.put {α : Type} (c : IECache α) (key : String) (data : α) (now : ℚ) :
    IECache α :=
  { c with entries := cacheInsert c.entries key data now,
           sets_count := c.sets_count + 1 }

/-- The dict returned by IECache.get_stats. -/
structure CacheStats where
  hits : ℕ
  misses : ℕ
  sets_count : ℕ
  total_requests : ℕ
  hit_rate_pct : ℚ
  entries_count : ℕ
deriving Repr, DecidableEq

/-- IECache.get_stats: hit_rate is hits/total×100 when any get happened and
0.0 otherwise. -/
def IECache.get_stats {α : Type} (c : IECache α) : CacheStats :=
  let total_requests := c.hits + c.misses
  { hits := c.hits
    misses := c.misses
    sets_count := c.sets_count
    total_requests := total_requests
    hit_rate_pct :=
      if total_requests > 0 then (c.hits : ℚ) / (total_requests : ℚ) * 100 else 0
    entries_count := c.entries.length }

/-- One call against the cache, for stating the trace invariant. -/
inductive CacheOp (α : Type) where
  | getOp (key : String) (ttl now : ℚ)
  | setOp (key : String) (data : α) (now : ℚ)

/-- Run a sequence of calls against a cache state. -/
def runCacheOps {α : Type} (c : IECache α) : List (CacheOp α) → IECache α
  | [] => c
  | .getOp key ttl now :: rest => runCacheOps (c.get key ttl now).2 rest
  | .setOp key data now :: rest => runCacheOps (c.put key data now) rest

/-- The number of get calls in a trace. -/
def countGets {α : Type} : List (CacheOp α) → ℕ
  | [] => 0
  | .getOp _ _ _ :: rest => countGets rest + 1
  | .setOp _ _ _ :: rest => countGets rest

/-! ## Concrete inputs used by witnesses and counterexamples -/

/-- A metrics dict whose raw point sum is 135 (every metric at its extreme
tier plus the aligned funding-basis bonus). -/
def highConvergenceMetrics : MetricsIn :=
  { ob_imbalance := some (7/10)
    flow_imbalance := some (6/10)
    vwap_z_score := some (5/2)
    funding_annualized := some 12
    oi_divergence_type := some "strong_bullish"
    basis_pct := some (4/10)
    current_price := some 67000
    vwap := some 67000 }

/-- A metrics dict with every key absent. -/
def emptyMetrics : MetricsIn :=
  { ob_imbalance := none, flow_imbalance := none, vwap_z_score := none,
    funding_annualized := none, oi_divergence_type := none, basis_pct := none,
    current_price := none, vwap := none }

/-- A funding history with snapshots now (t=100000, rate 10) and exactly 4h
earlier (t=85600, rate 5), but nothing near 8h or 12h ago. -/
def fundingHistNo8h : List FundingSnap := [⟨85600, 5⟩, ⟨100000, 10⟩]

/-- Candles whose highs are the spec's example series [10,12,9,11,8]. -/
def swingExampleCandles : List IctCandle :=
  [⟨1000, 10, 5⟩, ⟨2000, 12, 6⟩, ⟨3000, 9, 4⟩, ⟨4000, 11, 7⟩, ⟨5000, 8, 3⟩]

/-- An OI history holding a single snapshot written 4h10m (15000 s) before
now = 100000, i.e. 600 s away from the 4-hours-ago target. -/
def oiHist4h10m : List OISnap := [⟨85000, 1250000, 67800⟩]

/-- Concrete ICT configuration values satisfying the spec's constraint that
the zone thresholds straddle 50% by a neutral buffer. -/
def cfgExample : IctConfig :=
  { liquidity_grab_threshold_pct := 1/2
    discount_threshold := 1/2
    premium_threshold := 1/2
    mid_range_buffer := 1/20 }

/-! ## Helper lemmas -/

/-- Invariant of the tolerance-window scan: starting from an accumulator that
is either empty or a pair (snapshot, its in-tolerance distance), the scan ends
empty iff it started empty and no element is within tolerance, and any final
pair carries an in-tolerance element whose distance is minimal over the list
and no larger than the starting accumulator's. -/
theorem closest_aux_spec {α : Type} (tsOf : α → ℚ) (target tol : ℚ)
    (l : List α) :
    ∀ (acc : Option (α × ℚ)),
      (∀ p, acc = some p → p.2 = pyAbs (tsOf p.1 - target) ∧ p.2 < tol) →
      ((closest_aux tsOf target tol l acc = none ↔
          acc = none ∧ ∀ s ∈ l, ¬ pyAbs (tsOf s - target) < tol)
      ∧ (∀ p, closest_aux tsOf target tol l acc = some p →
          p.2 = pyAbs (tsOf p.1 - target) ∧ p.2 < tol
          ∧ (p.1 ∈ l ∨ acc = some p)
          ∧ (∀ s ∈ l, pyAbs (tsOf s - target) < tol → p.2 ≤ pyAbs (tsOf s - target))
          ∧ (∀ p₀, acc = some p₀ → p.2 ≤ p₀.2))) := by
  induction l with
  | nil =>
    intro acc hinv
    constructor
    · simp [closest_aux]
    · intro p hp
      simp only [closest_aux] at hp
      obtain ⟨h1, h2⟩ := hinv p hp
      exact ⟨h1, h2, Or.inr hp, by simp, fun p₀ h₀ => by rw [hp] at h₀; injection h₀ with h; rw [h]⟩
  | cons s rest ih =>
    intro acc hinv
    rcases hacc : acc with _ | ⟨r0, m0⟩
    · by_cases hd : pyAbs (tsOf s - target) < tol
      · have step : closest_aux tsOf target tol (s :: rest) none =
            closest_aux tsOf target tol rest (some (s, pyAbs (tsOf s - target))) := by
          simp [closest_aux, hd]
        have hinv' : ∀ p, (some (s, pyAbs (tsOf s - target)) : Option (α × ℚ)) = some p →
            p.2 = pyAbs (tsOf p.1 - target) ∧ p.2 < tol := by
          intro p hp
          injection hp with hp
          rw [← hp]
          exact ⟨rfl, hd⟩
        obtain ⟨ihnone, ihsome⟩ := ih (some (s, pyAbs (tsOf s - target))) hinv'
        constructor
        · rw [step, ihnone]
          constructor
          · intro h
            exact absurd h.1 (by simp)
          · intro h
            exact absurd hd (h.2 s (List.mem_cons_self _ _))
        · intro p hp
          rw [step] at hp
          obtain ⟨h1, h2, h3, h4, h5⟩ := ihsome p hp
          refine ⟨h1, h2, ?_, ?_, ?_⟩
          · rcases h3 with h | h
            · exact Or.inl (List.mem_cons_of_mem _ h)
            · injection h with h
              rw [← h]
              exact Or.inl (List.mem_cons_self _ _)
          · intro x hx hxtol
            rcases List.mem_cons.mp hx with rfl | hx'
            · exact h5 _ rfl
            · exact h4 x hx' hxtol
          · intro p₀ h₀
            exact absurd h₀ (by simp)
      · have step : closest_aux tsOf target tol (s :: rest) none =
            closest_aux tsOf target tol rest none := by
          simp [closest_aux, hd]
        have hinv' : ∀ p, (none : Option (α × ℚ)) = some p →
            p.2 = pyAbs (tsOf p.1 - target) ∧ p.2 < tol := by
          intro p hp
          exact absurd hp (by simp)
        obtain ⟨ihnone, ihsome⟩ := ih none hinv'
        constructor
        · rw [step, ihnone]
          simp only [true_and]
          constructor
          · intro h x hx
            rcases List.mem_cons.mp hx with rfl | hx'
            · exact hd
            · exact h x hx'
          · intro h x hx
            exact h x (List.mem_cons_of_mem _ hx)
        · intro p hp
          rw [step] at hp
          obtain ⟨h1, h2, h3, h4, h5⟩ := ihsome p hp
          refine ⟨h1, h2, ?_, ?_, ?_⟩
          · rcases h3 with h | h
            · exact Or.inl (List.mem_cons_of_mem _ h)
            · exact absurd h (by simp)
          · intro x hx hxtol
            rcases List.mem_cons.mp hx with rfl | hx'
            · exact absurd hxtol hd
            · exact h4 x hx' hxtol
          · intro p₀ h₀
            exact absurd h₀ (by simp)
    · obtain ⟨hm0, hm0tol⟩ := hinv (r0, m0) hacc
      by_cases hd : pyAbs (tsOf s - target) < tol ∧ pyAbs (tsOf s - target) < m0
      · have step : closest_aux tsOf target tol (s :: rest) (some (r0, m0)) =
            closest_aux tsOf target tol rest (some (s, pyAbs (tsOf s - target))) := by
          simp [closest_aux, hd]
        have hinv' : ∀ p, (some (s, pyAbs (tsOf s - target)) : Option (α × ℚ)) = some p →
            p.2 = pyAbs (tsOf p.1 - target) ∧ p.2 < tol := by
          intro p hp
          injection hp with hp
          rw [← hp]
          exact ⟨rfl, hd.1⟩
        obtain ⟨ihnone, ihsome⟩ := ih (some (s, pyAbs (tsOf s - target))) hinv'
        constructor
        · rw [step, ihnone]
          simp
        · intro p hp
          rw [step] at hp
          obtain ⟨h1, h2, h3, h4, h5⟩ := ihsome p hp
          refine ⟨h1, h2, ?_, ?_, ?_⟩
          · rcases h3 with h | h
            · exact Or.inl (List.mem_cons_of_mem _ h)
            · injection h with h
              rw [← h]
              exact Or.inl (List.mem_cons_self _ _)
          · intro x hx hxtol
            rcases List.mem_cons.mp hx with rfl | hx'
            · exact h5 _ rfl
            · exact h4 x hx' hxtol
          · intro p₀ h₀
            injection h₀ with h₀
            rw [← h₀]
            have := h5 (s, pyAbs (tsOf s - target)) rfl
            exact le_of_lt (lt_of_le_of_lt this hd.2)
      · have step : closest_aux tsOf target tol (s :: rest) (some (r0, m0)) =
            closest_aux tsOf target tol rest (some (r0, m0)) := by
          simp [closest_aux, hd]
        obtain ⟨ihnone, ihsome⟩ := ih (some (r0, m0)) (fun p hp => by
          injection hp with hp
          rw [← hp]
          exact ⟨hm0, hm0tol⟩)
        constructor
        · rw [step, ihnone]
          simp
        · intro p hp
          rw [step] at hp
          obtain ⟨h1, h2, h3, h4, h5⟩ := ihsome p hp
          refine ⟨h1, h2, ?_, ?_, ?_⟩
          · rcases h3 with h | h
            · exact Or.inl (List.mem_cons_of_mem _ h)
            · exact Or.inr h
          · intro x hx hxtol
            rcases List.mem_cons.mp hx with rfl | hx'
            · have hm0le : m0 ≤ pyAbs (tsOf x - target) := by
                rcases not_and_or.mp hd with h | h
                · exact absurd hxtol h
                · exact le_of_not_lt h
              have := h5 (r0, m0) rfl
              exact le_trans this hm0le
            · exact h4 x hx' hxtol
          · intro p₀ h₀
            injection h₀ with h₀
            rw [← h₀]
            exact h5 (r0, m0) rfl

/-- The tolerance-window lookup returns None exactly when no stored snapshot
is within tolerance of the target, and any returned snapshot is a stored one
within tolerance at minimal distance. -/
theorem closest_snapshot_spec {α : Type} (tsOf : α → ℚ) (target tol : ℚ) (l : List α) :
    (closest_snapshot tsOf target tol l = none ↔
      ∀ s ∈ l, ¬ pyAbs (tsOf s - target) < tol)
  ∧ (∀ r, closest_snapshot tsOf target tol l = some r →
      r ∈ l ∧ pyAbs (tsOf r - target) < tol
      ∧ ∀ s ∈ l, pyAbs (tsOf s - target) < tol →
          pyAbs (tsOf r - target) ≤ pyAbs (tsOf s - target)) := by
  obtain ⟨hnone, hsome⟩ := closest_aux_spec tsOf target tol l none (by simp)
  constructor
  · unfold closest_snapshot
    rw [Option.map_eq_none', hnone]
    simp
  · intro r hr
    unfold closest_snapshot at hr
    rcases Option.map_eq_some'.mp hr with ⟨p, hp, hpr⟩
    obtain ⟨h1, h2, h3, h4, h5⟩ := hsome p hp
    have hd : pyAbs (tsOf r - target) = p.2 := by rw [h1, hpr]
    have hmem : r ∈ l := by
      rcases h3 with h | h
      · rw [← hpr]
        exact h
      · exact absurd h (by simp)
    exact ⟨hmem, hd ▸ h2, fun s hs hst => hd ▸ h4 s hs hst⟩

/-- Binding a successful Except value just applies the continuation. -/
theorem except_ok_bind {ε α β : Type} (a : α) (f : α → Except ε β) :
    ((Except.ok a : Except ε α) >>= f) = f a := rfl

/-- The liquidity-grab loop cannot raise when every previous swing has a
nonzero price. -/
theorem liquidity_grab_loop_ok (sp thr : ℚ) (st : String) (l : List SwingPoint)
    (h : ∀ s ∈ l, s.price ≠ 0) :
    ∃ b, liquidity_grab_loop sp thr st l = .ok b := by
  induction l with
  | nil => exact ⟨false, rfl⟩
  | cons p rest ih =>
    simp only [liquidity_grab_loop]
    rw [if_neg (h p (List.mem_cons_self _ _))]
    by_cases hp : (if st = "high" then ((sp - p.price) / p.price) * 100
        else ((p.price - sp) / p.price) * 100) ≥ thr
    · exact ⟨true, by rw [if_pos hp]⟩
    · rw [if_neg hp]
      exact ih (fun s hs => h s (List.mem_cons_of_mem _ hs))

/-- identify_liquidity_grab cannot raise when every previous swing has a
nonzero price. -/
theorem identify_liquidity_grab_ok (cfg : IctConfig) (swing : SwingPoint)
    (previous : List SwingPoint) (st : String)
    (h : ∀ s ∈ previous, s.price ≠ 0) :
    ∃ b, identify_liquidity_grab cfg swing previous st = .ok b := by
  unfold identify_liquidity_grab
  by_cases hp : previous = []
  · rw [if_pos hp]
    exact ⟨false, rfl⟩
  · rw [if_neg hp]
    exact liquidity_grab_loop_ok _ _ _ _ h

/-- The backwards scan over a swing list cannot raise when every swing in the
list has a nonzero price. -/
theorem find_grabbed_swing_ok (cfg : IctConfig) (st : String) (l : List SwingPoint)
    (h : ∀ s ∈ l, s.price ≠ 0) :
    ∃ o, find_grabbed_swing cfg st l = .ok o := by
  induction l with
  | nil => exact ⟨none, rfl⟩
  | cons s rest ih =>
    obtain ⟨b, hb⟩ := identify_liquidity_grab_ok cfg s rest.reverse st
      (fun x hx => h x (List.mem_cons_of_mem _ (List.mem_reverse.mp hx)))
    simp only [find_grabbed_swing, hb]
    cases b with
    | true => exact ⟨some s, rfl⟩
    | false =>
      obtain ⟨o, ho⟩ := ih (fun x hx => h x (List.mem_cons_of_mem _ hx))
      exact ⟨o, by simpa [Except.bind] using ho⟩

/-- Each IECache.get increments exactly one of hits or misses by one and
leaves the sets counter alone. -/
theorem cache_get_counts {α : Type} (c : IECache α) (key : String) (ttl now : ℚ) :
    ((c.get key ttl now).2.hits = c.hits + 1 ∧ (c.get key ttl now).2.misses = c.misses
      ∨ (c.get key ttl now).2.hits = c.hits ∧ (c.get key ttl now).2.misses = c.misses + 1)
    ∧ (c.get key ttl now).2.sets_count = c.sets_count := by
  unfold IECache.get
  cases cacheLookup c.entries key with
  | none => exact ⟨Or.inr ⟨rfl, rfl⟩, rfl⟩
  | some p =>
    obtain ⟨data, ts⟩ := p
    dsimp only
    by_cases h : now - ts > ttl
    · rw [if_pos h]
      exact ⟨Or.inr ⟨rfl, rfl⟩, rfl⟩
    · rw [if_neg h]
      exact ⟨Or.inl ⟨rfl, rfl⟩, rfl⟩

/-- Running a trace of get/set calls adds exactly one hit-or-miss per get. -/
theorem runCacheOps_counts {α : Type} (ops : List (CacheOp α)) :
    ∀ c : IECache α,
      (runCacheOps c ops).hits + (runCacheOps c ops).misses =
        c.hits + c.misses + countGets ops := by
  induction ops with
  | nil =>
    intro c
    simp [runCacheOps, countGets]
  | cons op rest ih =>
    intro c
    cases op with
    | getOp key ttl now =>
      simp only [runCacheOps, countGets]
      rw [ih]
      obtain ⟨hcnt, -⟩ := cache_get_counts c key ttl now
      rcases hcnt with ⟨h1, h2⟩ | ⟨h1, h2⟩
      · rw [h1, h2]
        omega
      · rw [h1, h2]
        omega
    | setOp key data now =>
      simp only [runCacheOps, countGets]
      rw [ih]
      rfl

/-! ## Claim theorems -/

/-- C1 (amended): for a fixed metrics input, two calls to generate_signal
agree on every field except timestamp; the Signals are bit-identical exactly
when the clock reads the same value at both calls (the Python code stamps
each result with datetime.now()). -/
theorem generate_signal_modulo_timestamp (m : MetricsIn) (t₁ t₂ : ℚ) :
    ((generate_signal m t₁).action = (generate_signal m t₂).action
      ∧ (generate_signal m t₁).convergence_score = (generate_signal m t₂).convergence_score
      ∧ (generate_signal m t₁).confidence = (generate_signal m t₂).confidence
      ∧ (generate_signal m t₁).aligned_signals = (generate_signal m t₂).aligned_signals
      ∧ (generate_signal m t₁).bullish_signals = (generate_signal m t₂).bullish_signals
      ∧ (generate_signal m t₁).bearish_signals = (generate_signal m t₂).bearish_signals
      ∧ (generate_signal m t₁).score_breakdown = (generate_signal m t₂).score_breakdown
      ∧ (generate_signal m t₁).signal_breakdown = (generate_signal m t₂).signal_breakdown
      ∧ (generate_signal m t₁).entry_price = (generate_signal m t₂).entry_price
      ∧ (generate_signal m t₁).stop_loss = (generate_signal m t₂).stop_loss
      ∧ (generate_signal m t₁).take_profit = (generate_signal m t₂).take_profit)
  ∧ (generate_signal m t₁ = generate_signal m t₂ ↔ t₁ = t₂) := by
  refine ⟨⟨rfl, rfl, rfl, rfl, rfl, rfl, rfl, rfl, rfl, rfl, rfl⟩, ?_, ?_⟩
  · intro h
    exact congrArg Signal.timestamp h
  · intro h
    rw [h]

/-- C1 counterexample: two calls on the same metrics input at different clock
readings produce Signals whose timestamp fields differ, so the results are not
bit-identical. -/
theorem generate_signal_timestamp_differs :
    (generate_signal emptyMetrics 0).timestamp = 0
  ∧ (generate_signal emptyMetrics 1).timestamp = 1
  ∧ generate_signal emptyMetrics 0 ≠ generate_signal emptyMetrics 1 := by
  refine ⟨rfl, rfl, fun h => ?_⟩
  have ht : (0 : ℚ) = 1 := congrArg Signal.timestamp h
  norm_num at ht

/-- C2 (amended): get_funding_dynamics returns None when the 4h anchor is
missing (and when the history is empty) and never raises; on success,
velocity_4h = current − funding_4h; when the 8h anchor is missing the
velocity_8h key is left out but acceleration is set to 0.0 (silently zeroed,
not left undefined); when the 8h anchor exists, acceleration =
velocity_4h − (funding_4h − funding_8h). -/
theorem get_funding_dynamics_anchor_semantics (hist : List FundingSnap) (now : ℚ) :
    (get_funding_at_time hist now 4 = none → get_funding_dynamics hist now = none)
  ∧ (∀ d, get_funding_dynamics hist now = some d →
      some d.funding_4h_ago = get_funding_at_time hist now 4
      ∧ d.velocity_4h = d.current - d.funding_4h_ago
      ∧ d.funding_8h_ago = get_funding_at_time hist now 8
      ∧ (d.funding_8h_ago = none → d.velocity_8h = none ∧ d.acceleration = 0)
      ∧ (∀ f8, d.funding_8h_ago = some f8 →
          d.velocity_8h = some (d.current - f8)
          ∧ d.acceleration = d.velocity_4h - (d.funding_4h_ago - f8))) := by
  constructor
  · intro h4
    unfold get_funding_dynamics
    cases hl : hist.getLast? with
    | none => rfl
    | some cur => simp [h4]
  · intro d hd
    unfold get_funding_dynamics at hd
    cases hl : hist.getLast? with
    | none =>
      rw [hl] at hd
      exact absurd hd (by simp)
    | some cur =>
      rw [hl] at hd
      cases h4 : get_funding_at_time hist now 4 with
      | none =>
        rw [h4] at hd
        exact absurd hd (by simp)
      | some f4 =>
        rw [h4] at hd
        simp only [Option.some.injEq] at hd
        subst hd
        refine ⟨rfl, rfl, rfl, ?_, ?_⟩
        · intro h8
          simp only [h8]
          cases h8' : get_funding_at_time hist now 8 with
          | none => simp [h8']
          | some f8 => simp [h8'] at h8
        · intro f8 h8
          simp only at h8
          simp [h8]

/-- C2 witness: on the concrete two-snapshot history with a 4h anchor and no
8h anchor, get_funding_dynamics succeeds, velocity_4h follows the velocity
formula, and (via the theorem) the missing 8h anchor leaves velocity_8h out
and zeroes acceleration. -/
theorem get_funding_dynamics_anchor_semantics_witness :
    ∃ d, get_funding_dynamics fundingHistNo8h 100000 = some d
      ∧ d.funding_8h_ago = none ∧ d.velocity_8h = none ∧ d.acceleration = 0
      ∧ d.velocity_4h = d.current - d.funding_4h_ago := by
  have hd : get_funding_dynamics fundingHistNo8h 100000 =
      some { current := 10, funding_4h_ago := 5, velocity_4h := 5,
             funding_8h_ago := none, velocity_8h := none,
             funding_12h_ago := none, acceleration := 0 } := by
    norm_num [get_funding_dynamics, get_funding_at_time, closest_snapshot,
      closest_aux, pyAbs, STORAGE_TOLERANCE, fundingHistNo8h]
  obtain ⟨-, hv4, -, h8, -⟩ :=
    (get_funding_dynamics_anchor_semantics fundingHistNo8h 100000).2 _ hd
  exact ⟨_, hd, rfl, (h8 rfl).1, (h8 rfl).2, hv4⟩

/-- C2 counterexample: with the now and now−4h anchors present and the
now−8h anchor missing, the returned dict contains acceleration = 0.0 instead
of leaving the acceleration value undefined. -/
theorem funding_dynamics_acceleration_zeroed :
    get_funding_at_time fundingHistNo8h 100000 8 = none
  ∧ get_funding_dynamics fundingHistNo8h 100000 =
      some { current := 10, funding_4h_ago := 5, velocity_4h := 5,
             funding_8h_ago := none, velocity_8h := none,
             funding_12h_ago := none, acceleration := 0 } := by
  constructor
  · norm_num [get_funding_at_time, closest_snapshot, closest_aux, pyAbs,
      STORAGE_TOLERANCE, fundingHistNo8h]
  · norm_num [get_funding_dynamics, get_funding_at_time, closest_snapshot,
      closest_aux, pyAbs, STORAGE_TOLERANCE, fundingHistNo8h]

/-- C3: the action is LONG iff the score clears the minimum and the bullish
count reaches the aligned minimum and strictly beats the bearish count, SHORT
under the mirrored condition, SKIP otherwise; equal counts always give SKIP
regardless of the score. -/
theorem determine_action_spec (minScore : ℤ) (minAligned : ℕ) (score : ℤ) (b r : ℕ) :
    (determine_action minScore minAligned score b r = SignalAction.LONG ↔
      minScore ≤ score ∧ minAligned ≤ b ∧ r < b)
  ∧ (determine_action minScore minAligned score b r = SignalAction.SHORT ↔
      minScore ≤ score ∧ minAligned ≤ r ∧ b < r)
  ∧ (determine_action minScore minAligned score b r = SignalAction.SKIP ↔
      score < minScore ∨ (¬(minAligned ≤ b ∧ r < b) ∧ ¬(minAligned ≤ r ∧ b < r)))
  ∧ determine_action minScore minAligned score b b = SignalAction.SKIP := by
  unfold determine_action
  refine ⟨?_, ?_, ?_, ?_⟩
  all_goals split_ifs <;> simp_all
  all_goals omega

/-- C4: the convergence score lies in [0,100] for every metrics input; the
concrete all-extreme input has raw sum 135 (beyond 100) and is clamped to
exactly 100. -/
theorem convergence_score_in_range :
    (∀ m : MetricsIn,
      0 ≤ (calculate_convergence_score m).1 ∧ (calculate_convergence_score m).1 ≤ 100)
  ∧ (convergence_raw highConvergenceMetrics).1 = 135
  ∧ (calculate_convergence_score highConvergenceMetrics).1 = 100 := by
  refine ⟨?_, ?_, ?_⟩
  · intro m
    simp only [calculate_convergence_score, pyMinZ, pyMaxZ]
    split_ifs <;> omega
  · norm_num [convergence_raw, highConvergenceMetrics, THRESHOLDS, SCORING, pyAbs]
  · norm_num [calculate_convergence_score, convergence_raw, highConvergenceMetrics,
      THRESHOLDS, SCORING, pyAbs, pyMinZ, pyMaxZ]

/-- C5 (amended): in ie/calculations.py the imbalance ratio is computed from
SIZE-only liquidity (the sum of sizes over the top N levels), returning
(0, neutral) when that total is zero, with the strength bucket a function of
the ratio's magnitude; the emerald OrderBookImbalanceMetric is the variant
that uses price×size liquidity, returning that ratio rounded to 4 decimals
(and 0 on empty books) with the two liquidity sums as metadata and no bucket. -/
theorem order_book_imbalance_spec :
    (∀ (bids asks : List (ℚ × ℚ)) (depth : ℕ),
      (((bids.take depth).map (·.2)).sum + ((asks.take depth).map (·.2)).sum = 0 →
        calculate_order_book_imbalance bids asks depth = (0, "neutral"))
      ∧ (((bids.take depth).map (·.2)).sum + ((asks.take depth).map (·.2)).sum ≠ 0 →
        (calculate_order_book_imbalance bids asks depth).1 =
          (((bids.take depth).map (·.2)).sum - ((asks.take depth).map (·.2)).sum) /
            (((bids.take depth).map (·.2)).sum + ((asks.take depth).map (·.2)).sum))
      ∧ (calculate_order_book_imbalance bids asks depth).2 =
          imbalance_strength (calculate_order_book_imbalance bids asks depth).1)
  ∧ (∀ (bids asks : List BookLevel) (levels : ℕ),
      (order_book_imbalance_metric bids asks levels).bid_liquidity =
        ((bids.take levels).map (fun b => b.price * b.size)).sum
      ∧ (order_book_imbalance_metric bids asks levels).ask_liquidity =
        ((asks.take levels).map (fun a => a.price * a.size)).sum
      ∧ (order_book_imbalance_metric bids asks levels).value =
        roundTo 4 (if ((bids.take levels).map (fun b => b.price * b.size)).sum +
            ((asks.take levels).map (fun a => a.price * a.size)).sum = 0 then 0
          else (((bids.take levels).map (fun b => b.price * b.size)).sum -
              ((asks.take levels).map (fun a => a.price * a.size)).sum) /
            (((bids.take levels).map (fun b => b.price * b.size)).sum +
              ((asks.take levels).map (fun a => a.price * a.size)).sum))) := by
  constructor
  · intro bids asks depth
    refine ⟨?_, ?_, ?_⟩
    · intro h
      simp only [calculate_order_book_imbalance]
      rw [if_pos h]
    · intro h
      simp only [calculate_order_book_imbalance]
      rw [if_neg h]
    · simp only [calculate_order_book_imbalance, imbalance_strength]
      split_ifs <;> simp_all
      all_goals linarith
  · intro bids asks levels
    exact ⟨rfl, rfl, rfl⟩

/-- C5 witness: a two-level book analysed at depth 2 with size totals 1 vs 3
gives ratio (1−3)/4 = −1/2 and the strong_ask_pressure bucket. -/
theorem order_book_imbalance_spec_witness :
    (calculate_order_book_imbalance [(100, 1)] [(1, 3)] 2).1 = -(1/2)
  ∧ (calculate_order_book_imbalance [(100, 1)] [(1, 3)] 2).2 = "strong_ask_pressure" := by
  obtain ⟨-, hval, hstr⟩ := (order_book_imbalance_spec).1 [(100, 1)] [(1, 3)] 2
  have h1 : (calculate_order_book_imbalance [(100, 1)] [(1, 3)] 2).1 = -(1/2) := by
    rw [hval (by norm_num)]
    norm_num
  refine ⟨h1, ?_⟩
  rw [hstr, h1]
  norm_num [imbalance_strength]

/-- C5 counterexample: on the book with one bid (price 100, size 1) and one
ask (price 1, size 1), calculate_order_book_imbalance returns 0 while the
spec's price×size formula gives 99/101, so the returned metric is not the
price-weighted ratio. -/
theorem order_book_imbalance_not_price_weighted :
    (calculate_order_book_imbalance [(100, 1)] [(1, 1)] 1).1 = 0
  ∧ spec_order_book_imbalance [(100, 1)] [(1, 1)] 1 = 99 / 101
  ∧ (0 : ℚ) ≠ 99 / 101 := by
  refine ⟨?_, ?_, by norm_num⟩
  · norm_num [calculate_order_book_imbalance]
  · norm_num [spec_order_book_imbalance]

/-- C6 (amended): calculate_vwap on a non-empty window returns the simple
average of typical prices when the total volume is zero and
sum(typical×volume)/sum(volume) otherwise, always a well-defined rational;
the emerald VWAPDeviationMetric instead returns a neutral result whose vwap
metadata is 0.0 (not the typical-price average) when the window's total
volume is zero. -/
theorem vwap_zero_volume_semantics :
    (∀ candles : List IeCandle, candles ≠ [] →
      ((candles.map (·.volume)).sum = 0 →
        calculate_vwap candles = (candles.map typicalPrice).sum / (candles.length : ℚ))
      ∧ ((candles.map (·.volume)).sum ≠ 0 →
        calculate_vwap candles =
          (candles.map (fun c => typicalPrice c * c.volume)).sum / (candles.map (·.volume)).sum))
  ∧ (∀ (sqrtFn : ℚ → ℚ) (candles : List IeCandle) (lookback : ℕ),
      (((if lookback = 0 then candles else candles.drop (candles.length - lookback)).map
          (·.volume)).sum = 0 →
        vwap_deviation_metric sqrtFn candles lookback =
          some { value := 0, vwap := 0, deviation_pct := 0, z_score := 0,
                 current_price := none })) := by
  constructor
  · intro candles hne
    constructor
    · intro h
      simp only [calculate_vwap]
      rw [if_neg hne, if_pos h]
    · intro h
      simp only [calculate_vwap]
      rw [if_neg hne, if_neg h]
  · intro sqrtFn candles lookback h
    simp only [vwap_deviation_metric]
    rw [if_pos h]

/-- C6 witness: the single candle (H 10, L 8, C 9) gives VWAP 9 both with
zero volume (typical-price fallback) and with volume 2 (weighted formula). -/
theorem vwap_zero_volume_semantics_witness :
    calculate_vwap [⟨10, 8, 9, 0⟩] = 9 ∧ calculate_vwap [⟨10, 8, 9, 2⟩] = 9 := by
  constructor
  · rw [((vwap_zero_volume_semantics).1 [⟨10, 8, 9, 0⟩] (by simp)).1 (by norm_num)]
    norm_num [typicalPrice]
  · rw [((vwap_zero_volume_semantics).1 [⟨10, 8, 9, 2⟩] (by simp)).2 (by norm_num)]
    norm_num [typicalPrice]

/-- C6 counterexample: on the zero-volume window [(H 10, L 8, C 9, V 0)],
calculate_vwap returns the typical-price average 9, but the emerald
VWAPDeviationMetric returns vwap = 0, not the typical-price average. -/
theorem vwap_metric_zero_volume_not_typical_average :
    calculate_vwap [⟨10, 8, 9, 0⟩] = 9
  ∧ vwap_deviation_metric (fun q => q) [⟨10, 8, 9, 0⟩] 60 =
      some { value := 0, vwap := 0, deviation_pct := 0, z_score := 0, current_price := none }
  ∧ (0 : ℚ) ≠ 9 := by
  refine ⟨?_, ?_, by norm_num⟩
  · norm_num [calculate_vwap, typicalPrice]
  · norm_num [vwap_deviation_metric]

/-- C7: a "T hours ago" lookup (OI or funding) returns None exactly when no
stored snapshot lies strictly within the 900-second tolerance of the target
time, and otherwise returns a stored snapshot within tolerance whose distance
to the target is minimal. -/
theorem get_at_time_tolerance (oiHist : List OISnap) (fHist : List FundingSnap)
    (now hours_ago : ℚ) :
    (get_oi_at_time oiHist now hours_ago = none ↔
      ∀ s ∈ oiHist, ¬ pyAbs (s.ts - (now - hours_ago * 3600)) < STORAGE_TOLERANCE)
  ∧ (∀ r, get_oi_at_time oiHist now hours_ago = some r →
      r ∈ oiHist
      ∧ pyAbs (r.ts - (now - hours_ago * 3600)) < STORAGE_TOLERANCE
      ∧ ∀ s ∈ oiHist, pyAbs (s.ts - (now - hours_ago * 3600)) < STORAGE_TOLERANCE →
          pyAbs (r.ts - (now - hours_ago * 3600)) ≤ pyAbs (s.ts - (now - hours_ago * 3600)))
  ∧ (get_funding_at_time fHist now hours_ago = none ↔
      ∀ s ∈ fHist, ¬ pyAbs (s.ts - (now - hours_ago * 3600)) < STORAGE_TOLERANCE)
  ∧ (∀ v, get_funding_at_time fHist now hours_ago = some v →
      ∃ s ∈ fHist, s.rate = v
        ∧ pyAbs (s.ts - (now - hours_ago * 3600)) < STORAGE_TOLERANCE
        ∧ ∀ s' ∈ fHist, pyAbs (s'.ts - (now - hours_ago * 3600)) < STORAGE_TOLERANCE →
            pyAbs (s.ts - (now - hours_ago * 3600)) ≤ pyAbs (s'.ts - (now - hours_ago * 3600))) := by
  obtain ⟨hoin, hois⟩ := closest_snapshot_spec (OISnap.ts) (now - hours_ago * 3600)
    STORAGE_TOLERANCE oiHist
  obtain ⟨hfn, hfs⟩ := closest_snapshot_spec (FundingSnap.ts) (now - hours_ago * 3600)
    STORAGE_TOLERANCE fHist
  refine ⟨hoin, hois, ?_, ?_⟩
  · unfold get_funding_at_time
    rw [Option.map_eq_none', hfn]
  · intro v hv
    unfold get_funding_at_time at hv
    rcases Option.map_eq_some'.mp hv with ⟨s, hs, hsv⟩
    obtain ⟨hmem, htol, hmin⟩ := hfs s hs
    exact ⟨s, hmem, hsv, htol, hmin⟩

/-- C7 witness: a snapshot written 4h10m before now (600 s from the 4-hours
target, inside the 900 s tolerance) is returned by the 4-hours-ago query, and
by the theorem it is a stored snapshot within tolerance. -/
theorem get_at_time_tolerance_witness :
    get_oi_at_time oiHist4h10m 100000 4 = some ⟨85000, 1250000, 67800⟩
  ∧ (⟨85000, 1250000, 67800⟩ : OISnap) ∈ oiHist4h10m
  ∧ pyAbs ((⟨85000, 1250000, 67800⟩ : OISnap).ts - (100000 - 4 * 3600)) < STORAGE_TOLERANCE := by
  have h : get_oi_at_time oiHist4h10m 100000 4 = some ⟨85000, 1250000, 67800⟩ := by
    norm_num [get_oi_at_time, closest_snapshot, closest_aux, pyAbs,
      STORAGE_TOLERANCE, oiHist4h10m]
  obtain ⟨hmem, htol, -⟩ := (get_at_time_tolerance oiHist4h10m [] 100000 4).2.1 _ h
  exact ⟨h, hmem, htol⟩

/-- C8: on a candle list of sufficient length, an interior index is reported
as a swing high exactly when its high strictly beats both neighbours, and as
a swing low exactly when its low is strictly below both neighbours, carrying
that candle's timestamp and extreme price. -/
theorem detect_swings_spec (candles : List IctCandle) (min_candles : ℕ)
    (hlen : min_candles ≤ candles.length) :
    (∀ i ts p, (⟨i, ts, p⟩ : SwingPoint) ∈ detect_swing_highs candles min_candles ↔
      1 ≤ i ∧ i + 1 < candles.length
        ∧ candleHigh candles i > candleHigh candles (i - 1)
        ∧ candleHigh candles i > candleHigh candles (i + 1)
        ∧ ts = candleTime candles i ∧ p = candleHigh candles i)
  ∧ (∀ i ts p, (⟨i, ts, p⟩ : SwingPoint) ∈ detect_swing_lows candles min_candles ↔
      1 ≤ i ∧ i + 1 < candles.length
        ∧ candleLow candles i < candleLow candles (i - 1)
        ∧ candleLow candles i < candleLow candles (i + 1)
        ∧ ts = candleTime candles i ∧ p = candleLow candles i) := by
  constructor
  · intro i ts p
    unfold detect_swing_highs
    rw [if_neg (by omega), List.mem_filterMap]
    constructor
    · rintro ⟨j, hj, hfj⟩
      rw [List.mem_range'_1] at hj
      by_cases hc : candleHigh candles j > candleHigh candles (j - 1)
          ∧ candleHigh candles j > candleHigh candles (j + 1)
      · rw [if_pos hc] at hfj
        simp only [Option.some.injEq, SwingPoint.mk.injEq] at hfj
        obtain ⟨rfl, hts, hp⟩ := hfj
        exact ⟨by omega, by omega, hc.1, hc.2, hts.symm, hp.symm⟩
      · rw [if_neg hc] at hfj
        exact absurd hfj (by simp)
    · rintro ⟨h1, h2, h3, h4, rfl, rfl⟩
      refine ⟨i, ?_, ?_⟩
      · rw [List.mem_range'_1]
        omega
      · rw [if_pos ⟨h3, h4⟩]
  · intro i ts p
    unfold detect_swing_lows
    rw [if_neg (by omega), List.mem_filterMap]
    constructor
    · rintro ⟨j, hj, hfj⟩
      rw [List.mem_range'_1] at hj
      by_cases hc : candleLow candles j < candleLow candles (j - 1)
          ∧ candleLow candles j < candleLow candles (j + 1)
      · rw [if_pos hc] at hfj
        simp only [Option.some.injEq, SwingPoint.mk.injEq] at hfj
        obtain ⟨rfl, hts, hp⟩ := hfj
        exact ⟨by omega, by omega, hc.1, hc.2, hts.symm, hp.symm⟩
      · rw [if_neg hc] at hfj
        exact absurd hfj (by simp)
    · rintro ⟨h1, h2, h3, h4, rfl, rfl⟩
      refine ⟨i, ?_, ?_⟩
      · rw [List.mem_range'_1]
        omega
      · rw [if_pos ⟨h3, h4⟩]

/-- C8 witness: the candle series with highs [10,12,9,11,8] yields a swing
high at index 1 with price 12. -/
theorem detect_swings_witness :
    3 ≤ swingExampleCandles.length
    ∧ (⟨1, 2000, 12⟩ : SwingPoint) ∈ detect_swing_highs swingExampleCandles 3 := by
  refine ⟨by norm_num [swingExampleCandles], ?_⟩
  refine ((detect_swings_spec swingExampleCandles 3 (by norm_num [swingExampleCandles])).1
    1 2000 12).mpr ?_
  refine ⟨by norm_num, by norm_num [swingExampleCandles], ?_, ?_, ?_, ?_⟩ <;>
    norm_num [candleHigh, candleTime, swingExampleCandles]

/-- C9 (amended): calculate_dealing_range with at least one swing high and one
swing low, all of nonzero price, raises nothing and returns a valid=True
result; when the most recent (liquidity-selected) swings form a degenerate or
inverted range (range_high ≤ range_low), current_percent is 0.5 and — for zone
thresholds straddling 50% as the spec fixes — the zone is mid-range.  A zero
earlier swing price makes identify_liquidity_grab divide by zero (the Except
error), so the nonzero-price premise cannot be dropped. -/
theorem calculate_dealing_range_safe :
    (∀ (cfg : IctConfig) (swing_highs swing_lows : List SwingPoint) (price : ℚ),
      swing_highs ≠ [] → swing_lows ≠ [] →
      (∀ s ∈ swing_highs, s.price ≠ 0) → (∀ s ∈ swing_lows, s.price ≠ 0) →
      ∃ r, calculate_dealing_range cfg swing_highs swing_lows price = .ok r ∧ r.valid = true)
  ∧ (∀ (cfg : IctConfig) (sh sl : SwingPoint) (price : ℚ),
      sh.price ≠ 0 → sl.price ≠ 0 → sh.price ≤ sl.price →
      cfg.discount_threshold - cfg.mid_range_buffer < 1/2 →
      1/2 < cfg.premium_threshold + cfg.mid_range_buffer →
      ∃ r, calculate_dealing_range cfg [sh] [sl] price = .ok r
        ∧ r.valid = true ∧ r.current_percent = some (1/2) ∧ r.zone = "mid-range") := by
  constructor
  · intro cfg swing_highs swing_lows price hh hl hhp hlp
    obtain ⟨ol, hol⟩ := find_grabbed_swing_ok cfg "low" swing_lows.reverse
      (fun s hs => hlp s (List.mem_reverse.mp hs))
    obtain ⟨oh, hoh⟩ := find_grabbed_swing_ok cfg "high" swing_highs.reverse
      (fun s hs => hhp s (List.mem_reverse.mp hs))
    simp only [calculate_dealing_range]
    rw [if_neg (by simp [hh, hl])]
    simp only [hol, hoh, except_ok_bind]
    exact ⟨_, rfl, rfl⟩
  · intro cfg sh sl price hshp hslp hle hdisc hprem
    have hfl : find_grabbed_swing cfg "low" ([sl].reverse) = .ok none := rfl
    have hfh : find_grabbed_swing cfg "high" ([sh].reverse) = .ok none := rfl
    have hsize : ¬ (sh.price - sl.price > 0) := by
      simp only [gt_iff_lt, not_lt, sub_nonpos]
      exact hle
    simp only [calculate_dealing_range]
    rw [if_neg (by simp)]
    simp only [hfl, hfh, except_ok_bind, Option.getD_none, List.getLast?_singleton,
      Option.getD_some]
    simp only [if_neg hsize]
    rw [if_neg (not_le.mpr hdisc), if_neg (not_le.mpr hprem)]
    refine ⟨_, rfl, rfl, ?_, rfl⟩
    norm_num [roundTo, roundHalfEven]

/-- C9 witness: with one swing high and one swing low at the same nonzero
price (a degenerate range) under spec-compliant zone thresholds, the call
succeeds with valid=True, current_percent 0.5 and zone mid-range. -/
theorem calculate_dealing_range_safe_witness :
    ∃ r, calculate_dealing_range cfgExample [⟨1, 1, 10⟩] [⟨2, 2, 10⟩] 7 = .ok r
      ∧ r.valid = true ∧ r.current_percent = some (1/2) ∧ r.zone = "mid-range" := by
  exact (calculate_dealing_range_safe).2 cfgExample ⟨1, 1, 10⟩ ⟨2, 2, 10⟩ 7
    (by norm_num) (by norm_num) (by norm_num)
    (by norm_num [cfgExample]) (by norm_num [cfgExample])

/-- C9 counterexample: one swing high and two swing lows are supplied, yet the
call raises ZeroDivisionError (the Except error) because the liquidity-grab
check divides by the earlier swing low's price 0 — so valid=True is not
reached and a division by zero does occur. -/
theorem dealing_range_zero_price_division_error :
    calculate_dealing_range cfgExample [⟨1, 1, 10⟩] [⟨0, 0, 0⟩, ⟨2, 2, 5⟩] 7 =
      .error () := rfl

/-- C10: every get increments exactly one of hits/misses by exactly one and
leaves sets unchanged, every set increments sets by exactly one and leaves
hits/misses unchanged, hits + misses equals the number of gets in any trace
from a fresh cache, and get_stats reports hit rate 0.0 with no division when
no get has happened. -/
theorem iecache_counter_invariants :
    (∀ (α : Type) (c : IECache α) (key : String) (ttl now : ℚ),
      ((c.get key ttl now).2.hits = c.hits + 1 ∧ (c.get key ttl now).2.misses = c.misses
        ∨ (c.get key ttl now).2.hits = c.hits ∧ (c.get key ttl now).2.misses = c.misses + 1)
      ∧ (c.get key ttl now).2.sets_count = c.sets_count)
  ∧ (∀ (α : Type) (c : IECache α) (key : String) (data : α) (now : ℚ),
      (c.put key data now).sets_count = c.sets_count + 1
      ∧ (c.put key data now).hits = c.hits ∧ (c.put key data now).misses = c.misses)
  ∧ (∀ (α : Type) (ops : List (CacheOp α)),
      (runCacheOps IECache.empty ops).hits + (runCacheOps IECache.empty ops).misses =
        countGets ops)
  ∧ (∀ (α : Type) (c : IECache α), c.hits + c.misses = 0 →
      c.get_stats.hit_rate_pct = 0) := by
  refine ⟨fun α c key ttl now => cache_get_counts c key ttl now,
    fun α c key data now => ⟨rfl, rfl, rfl⟩, ?_, ?_⟩
  · intro α ops
    rw [runCacheOps_counts ops IECache.empty]
    simp [IECache.empty]
  · intro α c h
    simp only [IECache.get_stats]
    rw [if_neg (by omega)]

/-- C10 witness: a fresh cache has performed no gets and its reported hit
rate is 0.0. -/
theorem iecache_counter_invariants_witness :
    (IECache.empty (α := ℚ)).get_stats.hit_rate_pct = 0 := by
  exact (iecache_counter_invariants).2.2.2 ℚ IECache.empty rfl
